import Mathlib

/-!
Verification of the perco_web staff-card synchronization service (`main.go`).

The development shallowly embeds the parts of the program the specification
talks about:

* the source-row decoding loop of `updateHandler` (main.go:357-403), including
  the `sql.NullString` handling of nullable text columns;
* the destination schema reconciler `initPostgresTable` (main.go:229-321);
* the delete-all-then-insert-all transaction of `updateHandler`
  (main.go:425-495), modelled with an explicit transaction object whose
  working copy becomes visible only on commit;
* the card-lookup endpoint `searchAPIHandler` (main.go:505-579).

Databases are modelled as ordered lists of rows holding explicit SQL values
(`NULL`, integer, text); the destination Postgres catalog is an association
list from table names to tables.
-/

set_option autoImplicit false

namespace PercoWeb

/-- A SQL value as seen through `database/sql`: `NULL`, a 64-bit integer,
or a text value.  Timestamps travel as formatted text in this program
(`updateTime` is a `time.Now().Format` string bound to `$8`). -/
inductive SqlValue where
  | vNull
  | vInt (n : Int)
  | vText (s : String)
deriving DecidableEq, Repr

/-- The `StaffCard` struct (main.go:36-44).  Optional text fields are Go
`*string` pointers: `none` is the nil pointer (absent), `some s` a present
string — distinguishable from `some ""`. -/
structure StaffCard where
  idStaff : Int
  identifier : String
  lastName : Option String
  firstName : Option String
  middleName : Option String
  status : Option String
  info : Option String
deriving DecidableEq, Repr

/-- One row produced by the Firebird join query (main.go:344-348):
`SELECT s.LAST_NAME, s.FIRST_NAME, s.MIDDLE_NAME, s.ID_STAFF, sc.IDENTIFIER`. -/
structure SrcRow where
  lastName : SqlValue
  firstName : SqlValue
  middleName : SqlValue
  idStaff : SqlValue
  identifier : SqlValue
deriving DecidableEq, Repr

/-- Scanning a column into `sql.NullString`: a database `NULL` yields the
invalid/absent marker, text yields the string, and an integer is converted
to its decimal form (as `database/sql.convertAssign` does).  This scan never
fails for these source types. -/
def scanNullString : SqlValue → Option String
  | .vNull => none
  | .vInt n => some (toString n)
  | .vText s => some s

/-- Scanning a column into a plain Go `int64` (`sc.IDStaff`): `NULL` is a
conversion error, text must parse as an integer. -/
def scanInt64 : SqlValue → Except String Int
  | .vNull => .error "converting NULL to int64 is unsupported"
  | .vInt n => .ok n
  | .vText s =>
    match s.toInt? with
    | some n => .ok n
    | none => .error ("converting driver.Value type string to int64: " ++ s)

/-- Scanning a column into a plain Go `string` (`sc.Identifier`): `NULL` is a
conversion error. -/
def scanString : SqlValue → Except String String
  | .vNull => .error "converting NULL to string is unsupported"
  | .vInt n => .ok (toString n)
  | .vText s => .ok s

/-- The row decode of `updateHandler` (main.go:359-381): the three name
columns are scanned into `sql.NullString` and transferred to the record's
pointers only when valid; `ID_STAFF` and `IDENTIFIER` are scanned into
non-nullable Go fields, so a `NULL` there fails the whole `Scan`.
`Status` and `Info` are never populated by the extraction. -/
def scanStaffRow (row : SrcRow) : Except String StaffCard :=
  match scanInt64 row.idStaff with
  | .error e => .error e
  | .ok idv =>
    match scanString row.identifier with
    | .error e => .error e
    | .ok ident =>
      .ok { idStaff := idv
            identifier := ident
            lastName := scanNullString row.lastName
            firstName := scanNullString row.firstName
            middleName := scanNullString row.middleName
            status := none
            info := none }

/-- The fetch loop of `updateHandler` (main.go:357-394): rows are decoded in
order; the first decode failure aborts the whole extraction. -/
def fetchStaffCards : List SrcRow → Except String (List StaffCard)
  | [] => .ok []
  | row :: rest =>
    match scanStaffRow row with
    | .error e => .error e
    | .ok sc =>
      match fetchStaffCards rest with
      | .error e => .error e
      | .ok scs => .ok (sc :: scs)

/-- A row of the destination `staff_cards` table, one SQL value per column
of the insert statement (main.go:452-456). -/
structure DestRow where
  idStaff : SqlValue
  identifier : SqlValue
  lastName : SqlValue
  firstName : SqlValue
  middleName : SqlValue
  status : SqlValue
  info : SqlValue
  updatedAt : SqlValue
deriving DecidableEq, Repr

/-- How `lib/pq` binds a Go `*string` parameter: nil pointer becomes SQL
`NULL`, otherwise the pointed-to string. -/
def encodeOptString : Option String → SqlValue
  | none => .vNull
  | some s => .vText s

/-- The parameter row bound by `stmt.Exec` for one record
(main.go:467-476): `id_staff`, `identifier`, the five optional fields, and
the run-wide `updateTime` string as `updated_at`. -/
def insertRow (updateTime : String) (sc : StaffCard) : DestRow :=
  { idStaff := .vInt sc.idStaff
    identifier := .vText sc.identifier
    lastName := encodeOptString sc.lastName
    firstName := encodeOptString sc.firstName
    middleName := encodeOptString sc.middleName
    status := encodeOptString sc.status
    info := encodeOptString sc.info
    updatedAt := .vText updateTime }

/-- The row decode of `searchAPIHandler` (main.go:546-567): `id_staff` and
`identifier` into non-nullable Go fields, the five optional columns through
`sql.NullString`. -/
def searchDecodeRow (d : DestRow) : Except String StaffCard :=
  match scanInt64 d.idStaff with
  | .error e => .error e
  | .ok idv =>
    match scanString d.identifier with
    | .error e => .error e
    | .ok ident =>
      .ok { idStaff := idv
            identifier := ident
            lastName := scanNullString d.lastName
            firstName := scanNullString d.firstName
            middleName := scanNullString d.middleName
            status := scanNullString d.status
            info := scanNullString d.info }

/-- A Postgres transaction over the `staff_cards` rows: `snapshot` is the
committed row set at `BEGIN`, `working` the uncommitted working copy.
Readers outside the transaction see `snapshot` until a `COMMIT` publishes
`working`. -/
structure Tx where
  snapshot : List DestRow
  working : List DestRow
deriving DecidableEq, Repr

def txBegin (rows : List DestRow) : Tx := ⟨rows, rows⟩

/-- `DELETE FROM staff_cards` inside the transaction (main.go:442). -/
def txDeleteAll (t : Tx) : Tx := { t with working := [] }

/-- One `INSERT` inside the transaction (main.go:467-476). -/
def txInsert (t : Tx) (r : DestRow) : Tx := { t with working := t.working ++ [r] }

/-- `COMMIT` (main.go:490): the working copy becomes the visible row set. -/
def txCommit (t : Tx) : List DestRow := t.working

/-- A transaction abandoned without commit (the error paths of
main.go:477-481): the visible row set stays at the `BEGIN` snapshot. -/
def txAbort (t : Tx) : List DestRow := t.snapshot

/-- The insert loop of `updateHandler` (main.go:465-488), indexed from `i`.
`failAt` is the failure oracle: `some j` means the `stmt.Exec` for the
record at overall index `j` fails, modelling a single-insert failure. -/
def insertLoop (failAt : Option Nat) (updateTime : String) :
    Nat → List StaffCard → Tx → Except (Tx × Nat) Tx
  | _, [], t => .ok t
  | i, sc :: rest, t =>
    if failAt = some i then .error (t, i)
    else insertLoop failAt updateTime (i + 1) rest (txInsert t (insertRow updateTime sc))

/-- The delete-all-then-insert-all transaction of `updateHandler`
(main.go:425-495): begin, delete all rows, insert every record in input
order, commit; an insert failure abandons the transaction uncommitted, so
the visible rows stay at the pre-transaction snapshot.  Returns the visible
row set and either the failing index or the count of rows written. -/
def replaceAllTx (failAt : Option Nat) (updateTime : String)
    (records : List StaffCard) (rows : List DestRow) :
    List DestRow × Except Nat Nat :=
  match insertLoop failAt updateTime 0 records (txDeleteAll (txBegin rows)) with
  | .error (t, i) => (txAbort t, .error i)
  | .ok t => (txCommit t, .ok records.length)

/-- One column of a destination table, as the `CREATE TABLE` DDL describes
it: name, SQL type, whether the DDL marks it `NOT NULL`, whether it carries
a `DEFAULT`. -/
structure ColumnSpec where
  name : String
  sqlType : String
  notNull : Bool
  hasDefault : Bool
deriving DecidableEq, Repr

/-- A destination table: its column specifications and its rows. -/
structure PgTable where
  columns : List ColumnSpec
  rows : List DestRow
deriving DecidableEq, Repr

/-- The column names of a table, as the `information_schema.columns` query
of `initPostgresTable` (main.go:247-251) reports them. -/
def columnNames (t : PgTable) : List String := t.columns.map ColumnSpec.name

/-- The destination catalog: an association list from table names to
tables (Postgres table names are unique). -/
abbrev PgState := List (String × PgTable)

def getTable : PgState → String → Option PgTable
  | [], _ => none
  | (n, t) :: rest, name => if n = name then some t else getTable rest name

/-- Insert-or-replace a table binding. -/
def setTable : PgState → String → PgTable → PgState
  | [], name, t => [(name, t)]
  | (n, t0) :: rest, name, t =>
    if n = name then (name, t) :: rest else (n, t0) :: setTable rest name t

def removeTable : PgState → String → PgState
  | [], _ => []
  | (n, t) :: rest, name =>
    if n = name then removeTable rest name else (n, t) :: removeTable rest name

/-- `ALTER TABLE old RENAME TO new` (main.go:289): the table keeps its
columns and rows under the new name. -/
def renameTable (st : PgState) (old new : String) : PgState :=
  match getTable st old with
  | none => st
  | some t => setTable (removeTable st old) new t

/-- Replace only the rows of a (present) table. -/
def setTableRows : PgState → String → List DestRow → PgState
  | [], _, _ => []
  | (n, t) :: rest, name, rows =>
    if n = name then (n, { t with rows := rows }) :: rest
    else (n, t) :: setTableRows rest name rows

/-- The required column set of `initPostgresTable` (main.go:265-269). -/
def requiredColumns : List String :=
  ["id_staff", "identifier", "last_name", "first_name", "middle_name",
   "status", "info", "updated_at"]

/-- The column check of `initPostgresTable` (main.go:271-284): every
required column must occur among the table's columns.  Extra columns are
not inspected. -/
def hasAllColumns (cols : List String) : Bool :=
  requiredColumns.all (fun c => cols.contains c)

/-- The `CREATE TABLE staff_cards` DDL (main.go:300-311).  No column is
declared `NOT NULL`; `updated_at` has a `DEFAULT CURRENT_TIMESTAMP`. -/
def createTableColumns : List ColumnSpec :=
  [⟨"id_staff", "BIGINT", false, false⟩,
   ⟨"identifier", "TEXT", false, false⟩,
   ⟨"last_name", "VARCHAR(255)", false, false⟩,
   ⟨"first_name", "VARCHAR(255)", false, false⟩,
   ⟨"middle_name", "VARCHAR(255)", false, false⟩,
   ⟨"status", "VARCHAR(50)", false, false⟩,
   ⟨"info", "VARCHAR(50)", false, false⟩,
   ⟨"updated_at", "TIMESTAMP", false, true⟩]

/-- The freshly created, empty `staff_cards` table. -/
def freshTable : PgTable := { columns := createTableColumns, rows := [] }

/-- The archival name `staff_cards_old_<timestamp>` (main.go:288), `ts`
standing for `time.Now().Format("20060102_150405")`. -/
def archiveName (ts : String) : String := "staff_cards_old_" ++ ts

/-- `initPostgresTable` (main.go:229-321): if `staff_cards` exists and has
every required column, nothing happens; if it exists but misses one, it is
renamed to `archiveName ts` and a fresh table is created; if it does not
exist, a fresh table is created.  Returns the new catalog and the archival
name when a rename happened. -/
def initPostgresTable (ts : String) (st : PgState) : PgState × Option String :=
  match getTable st "staff_cards" with
  | some t =>
    if hasAllColumns (columnNames t) then (st, none)
    else
      let newName := archiveName ts
      let st1 := renameTable st "staff_cards" newName
      (setTable st1 "staff_cards" freshTable, some newName)
  | none => (setTable st "staff_cards" freshTable, none)

/-- The observable outcome of one `updateHandler` call. -/
inductive UpdateOutcome where
  | ok (recordsUpdated : Nat) (lastUpdate : String)
  | scanError
  | noData
  | insertError (i : Nat)
deriving DecidableEq, Repr

/-- The rows of the destination `staff_cards` table (empty if absent). -/
def staffRows (st : PgState) : List DestRow :=
  match getTable st "staff_cards" with
  | some t => t.rows
  | none => []

/-- `updateHandler` (main.go:324-502) as a state transformer on the
destination catalog: decode all source rows (aborting on the first decode
error, before touching the destination), reject an empty extraction before
touching the destination, then reconcile the schema and run the
delete-all-then-insert-all transaction.  `failAt` is the single-insert
failure oracle, `updateTime` the run-wide timestamp string computed once at
main.go:450, `ts` the archival timestamp. -/
def updateHandler (failAt : Option Nat) (updateTime ts : String)
    (src : List SrcRow) (st : PgState) : PgState × UpdateOutcome :=
  match fetchStaffCards src with
  | .error _ => (st, .scanError)
  | .ok staffCards =>
    if staffCards.isEmpty then (st, .noData)
    else
      let st1 := (initPostgresTable ts st).1
      let (rows1, res) := replaceAllTx failAt updateTime staffCards (staffRows st1)
      let st2 := setTableRows st1 "staff_cards" rows1
      match res with
      | .error i => (st2, .insertError i)
      | .ok n => (st2, .ok n updateTime)

/-- The observable outcome of one `searchAPIHandler` call. -/
inductive SearchOutcome where
  | found (sc : StaffCard)
  | notFound
  | scanError
deriving DecidableEq, Repr

/-- The result-decoding loop of `searchAPIHandler` (main.go:541-570):
decode matching rows in order, aborting on the first scan error. -/
def decodeResults : List DestRow → Except String (List StaffCard)
  | [] => .ok []
  | d :: ds =>
    match searchDecodeRow d with
    | .error e => .error e
    | .ok sc =>
      match decodeResults ds with
      | .error e => .error e
      | .ok scs => .ok (sc :: scs)

/-- `searchAPIHandler` (main.go:505-579) over the `staff_cards` rows: the
SQL `WHERE identifier = $1` filter, the decode loop, `404` when nothing
matched, else the first result (`results[0]`, main.go:578). -/
def searchAPIHandler (card : String) (rows : List DestRow) : SearchOutcome :=
  match decodeResults (rows.filter (fun d => d.identifier = SqlValue.vText card)) with
  | .error _ => .scanError
  | .ok [] => .notFound
  | .ok (r :: _) => .found r

/-- Whether a fallible step succeeded (Go: `err == nil`). -/
def exceptIsOk {α β : Type} : Except α β → Bool
  | .ok _ => true
  | .error _ => false

/-! ### Concrete sample data for witnesses and counterexamples -/

/-- A sample source row: `MIDDLE_NAME` is database-NULL, the keys present. -/
def sampleSrcRow : SrcRow :=
  { lastName := .vText "Ivanov", firstName := .vText "Ivan",
    middleName := .vNull, idStaff := .vInt 7, identifier := .vText "card-7" }

/-- The record `sampleSrcRow` decodes to. -/
def sampleCard : StaffCard :=
  { idStaff := 7, identifier := "card-7", lastName := some "Ivanov",
    firstName := some "Ivan", middleName := none, status := none, info := none }

/-- A second source row sharing the identifier of `sampleSrcRow`. -/
def sampleCard2 : StaffCard :=
  { idStaff := 8, identifier := "card-7", lastName := some "Petrov",
    firstName := none, middleName := none, status := none, info := none }

/-- A source row whose `ID_STAFF` key is database-NULL. -/
def nullKeySrcRow : SrcRow :=
  { lastName := .vText "Sidorov", firstName := .vNull,
    middleName := .vNull, idStaff := .vNull, identifier := .vText "card-9" }

/-- A pre-existing destination row from an earlier sync run. -/
def sampleDestRow : DestRow :=
  { idStaff := .vInt 1, identifier := .vText "old-card",
    lastName := .vText "Old", firstName := .vNull, middleName := .vNull,
    status := .vNull, info := .vNull, updatedAt := .vText "2024-01-01 00:00:00" }

/-- A correctly shaped destination table holding one old row. -/
def sampleTable : PgTable := { columns := createTableColumns, rows := [sampleDestRow] }

/-- A destination catalog holding only the correct `staff_cards` table. -/
def sampleState : PgState := [("staff_cards", sampleTable)]

/-- A `staff_cards` table with all eight required columns plus one extra. -/
def extraColumnsTable : PgTable :=
  { columns := createTableColumns ++ [⟨"extra_col", "TEXT", false, false⟩],
    rows := [sampleDestRow] }

/-- A catalog whose `staff_cards` has an extra, unrecognized column. -/
def extraColumnsState : PgState := [("staff_cards", extraColumnsTable)]

/-- A `staff_cards` table missing the required `updated_at` column. -/
def missingColumnTable : PgTable :=
  { columns := createTableColumns.take 7, rows := [sampleDestRow] }

/-- A catalog whose `staff_cards` misses one required column. -/
def missingColumnState : PgState := [("staff_cards", missingColumnTable)]

/-! ### Helper lemmas -/

theorem scanNullString_encode (v : Option String) :
    scanNullString (encodeOptString v) = v := by
  cases v <;> rfl

theorem searchDecode_insertRow (u : String) (sc : StaffCard) :
    searchDecodeRow (insertRow u sc) = .ok sc := by
  cases sc with
  | mk idv ident ln fn mn s i =>
    simp only [insertRow, searchDecodeRow, scanInt64, scanString, scanNullString_encode]

theorem insertLoop_error_snapshot (failAt : Option Nat) (u : String) :
    ∀ (rs : List StaffCard) (i : Nat) (t t' : Tx) (j : Nat),
      insertLoop failAt u i rs t = .error (t', j) → t'.snapshot = t.snapshot := by
  intro rs
  induction rs with
  | nil => intro i t t' j h; simp [insertLoop] at h
  | cons sc rest ih =>
    intro i t t' j h
    simp only [insertLoop] at h
    by_cases hf : failAt = some i
    · rw [if_pos hf] at h
      injection h with h1
      injection h1 with h2 h3
      rw [← h2]
    · rw [if_neg hf] at h
      have := ih (i + 1) (txInsert t (insertRow u sc)) t' j h
      simpa [txInsert] using this

theorem insertLoop_fails (u : String) :
    ∀ (rs : List StaffCard) (j i : Nat) (t : Tx), j < rs.length →
      ∃ t', insertLoop (some (i + j)) u i rs t = .error (t', i + j) := by
  intro rs
  induction rs with
  | nil => intro j i t h; simp at h
  | cons sc rest ih =>
    intro j i t h
    cases j with
    | zero => exact ⟨t, by simp [insertLoop]⟩
    | succ j' =>
      have hne : ¬ (some (i + (j' + 1)) = some i) := by
        intro hc; injection hc with hc'; omega
      have hlt : j' < rest.length := by simpa using h
      obtain ⟨t', ht'⟩ := ih j' (i + 1) (txInsert t (insertRow u sc)) hlt
      refine ⟨t', ?_⟩
      simp only [insertLoop, if_neg hne]
      have harith : i + 1 + j' = i + (j' + 1) := by omega
      rw [harith] at ht'
      exact ht'

theorem insertLoop_none (u : String) :
    ∀ (rs : List StaffCard) (i : Nat) (t : Tx),
      insertLoop none u i rs t = .ok ⟨t.snapshot, t.working ++ rs.map (insertRow u)⟩ := by
  intro rs
  induction rs with
  | nil => intro i t; simp [insertLoop]
  | cons sc rest ih =>
    intro i t
    simp only [insertLoop, List.map_cons]
    rw [ih (i + 1) (txInsert t (insertRow u sc))]
    simp [txInsert]

theorem replaceAllTx_fail (u : String) (records : List StaffCard)
    (rows : List DestRow) (j : Nat) (h : j < records.length) :
    replaceAllTx (some j) u records rows = (rows, .error j) := by
  obtain ⟨t', ht'⟩ := insertLoop_fails u records j 0 (txDeleteAll (txBegin rows)) h
  have hsnap := insertLoop_error_snapshot (some (0 + j)) u records 0
    (txDeleteAll (txBegin rows)) t' (0 + j) ht'
  simp only [Nat.zero_add] at ht' hsnap
  simp only [replaceAllTx]
  rw [ht']
  simp [txAbort, hsnap, txDeleteAll, txBegin]

theorem replaceAllTx_none (u : String) (records : List StaffCard) (rows : List DestRow) :
    replaceAllTx none u records rows = (records.map (insertRow u), .ok records.length) := by
  simp only [replaceAllTx]
  rw [insertLoop_none u records 0 (txDeleteAll (txBegin rows))]
  simp [txCommit, txDeleteAll, txBegin]

theorem getTable_setTable_same (st : PgState) (name : String) (t : PgTable) :
    getTable (setTable st name t) name = some t := by
  induction st with
  | nil => simp [setTable, getTable]
  | cons p rest ih =>
    obtain ⟨n, t0⟩ := p
    by_cases h : n = name
    · simp [setTable, getTable, h]
    · simp [setTable, getTable, h, ih]

theorem getTable_setTable_ne (st : PgState) (name n' : String) (t : PgTable)
    (h : n' ≠ name) : getTable (setTable st name t) n' = getTable st n' := by
  induction st with
  | nil => simp [setTable, getTable, Ne.symm h]
  | cons p rest ih =>
    obtain ⟨n, t0⟩ := p
    simp only [setTable]
    by_cases hn : n = name
    · subst hn
      rw [if_pos rfl]
      simp [getTable, Ne.symm h]
    · rw [if_neg hn]
      simp only [getTable, ih]

theorem getTable_removeTable_ne (st : PgState) (name n' : String)
    (h : n' ≠ name) : getTable (removeTable st name) n' = getTable st n' := by
  induction st with
  | nil => simp [removeTable]
  | cons p rest ih =>
    obtain ⟨n, t0⟩ := p
    simp only [removeTable]
    by_cases hn : n = name
    · subst hn
      rw [if_pos rfl, ih]
      simp [getTable, Ne.symm h]
    · rw [if_neg hn]
      simp only [getTable, ih]

theorem getTable_setTableRows (st : PgState) (name : String) (rows : List DestRow) :
    getTable (setTableRows st name rows) name =
      (getTable st name).map (fun t => { t with rows := rows }) := by
  induction st with
  | nil => simp [setTableRows, getTable]
  | cons p rest ih =>
    obtain ⟨n, t0⟩ := p
    by_cases h : n = name
    · simp [setTableRows, getTable, h]
    · simp [setTableRows, getTable, h, ih]

theorem archiveName_ne (ts : String) : archiveName ts ≠ "staff_cards" := by
  intro h
  have hl := congrArg String.length h
  rw [archiveName, String.length_append] at hl
  have h1 : String.length "staff_cards_old_" = 16 := by decide
  have h2 : String.length "staff_cards" = 11 := by decide
  omega

theorem initPostgresTable_correct (ts : String) (st : PgState) (t : PgTable)
    (hget : getTable st "staff_cards" = some t)
    (hcols : hasAllColumns (columnNames t) = true) :
    initPostgresTable ts st = (st, none) := by
  simp [initPostgresTable, hget, hcols]

theorem initPostgresTable_isSome (ts : String) (st : PgState) :
    (getTable (initPostgresTable ts st).1 "staff_cards").isSome := by
  unfold initPostgresTable
  cases hget : getTable st "staff_cards" with
  | none => simp [getTable_setTable_same]
  | some t =>
    by_cases hcols : hasAllColumns (columnNames t)
    · simp [hcols, hget]
    · simp [hcols, getTable_setTable_same]

theorem staffRows_setTableRows (st : PgState) (t : PgTable) (rows : List DestRow)
    (hget : getTable st "staff_cards" = some t) :
    staffRows (setTableRows st "staff_cards" rows) = rows := by
  simp [staffRows, getTable_setTableRows, hget]

theorem fetchStaffCards_mem_error :
    ∀ (src : List SrcRow) (row : SrcRow) (e : String), row ∈ src →
      scanStaffRow row = .error e → ∃ e', fetchStaffCards src = .error e' := by
  intro src
  induction src with
  | nil => intro row e h; simp at h
  | cons r rest ih =>
    intro row e hmem hscan
    rcases List.mem_cons.mp hmem with hhead | htail
    · subst hhead
      exact ⟨e, by simp [fetchStaffCards, hscan]⟩
    · cases hr : scanStaffRow r with
      | error e0 => exact ⟨e0, by simp [fetchStaffCards, hr]⟩
      | ok sc =>
        obtain ⟨e', he'⟩ := ih row e htail hscan
        exact ⟨e', by simp [fetchStaffCards, hr, he']⟩

theorem scanStaffRow_null_key (row : SrcRow)
    (h : row.idStaff = SqlValue.vNull ∨ row.identifier = SqlValue.vNull) :
    ∃ e, scanStaffRow row = .error e := by
  rcases h with h | h
  · refine ⟨"converting NULL to int64 is unsupported", ?_⟩
    simp [scanStaffRow, h, scanInt64]
  · cases hid : scanInt64 row.idStaff with
    | error e => exact ⟨e, by simp [scanStaffRow, hid]⟩
    | ok n =>
      refine ⟨"converting NULL to string is unsupported", ?_⟩
      simp [scanStaffRow, hid, h, scanString]

theorem filter_map_insertRow (u c : String) (records : List StaffCard) :
    (records.map (insertRow u)).filter (fun d => d.identifier = SqlValue.vText c) =
      (records.filter (fun r => r.identifier = c)).map (insertRow u) := by
  induction records with
  | nil => simp
  | cons r rest ih =>
    by_cases h : r.identifier = c
    · simp [insertRow, h, ih]
    · simp [insertRow, h, ih]

theorem decodeResults_map (u : String) :
    ∀ rs : List StaffCard, decodeResults (rs.map (insertRow u)) = .ok rs := by
  intro rs
  induction rs with
  | nil => simp [decodeResults]
  | cons r rest ih => simp [decodeResults, searchDecode_insertRow, ih]

/-! ### Claim theorems -/

/-- C1: if the delete-all-then-insert transaction of `updateHandler` fails at
any single insert after the delete-all step, the transaction is never
committed, so a subsequent read of the destination returns exactly the
pre-run row set — never a prefix of the new records or any partial state. -/
theorem atomic_rollback_on_insert_failure
    (st : PgState) (t : PgTable) (u ts : String) (src : List SrcRow)
    (cards : List StaffCard) (j : Nat)
    (hget : getTable st "staff_cards" = some t)
    (hcols : hasAllColumns (columnNames t) = true)
    (hfetch : fetchStaffCards src = .ok cards)
    (hj : j < cards.length) :
    (updateHandler (some j) u ts src st).2 = .insertError j ∧
    staffRows (updateHandler (some j) u ts src st).1 = staffRows st := by
  have hinit := initPostgresTable_correct ts st t hget hcols
  have hlen : ¬ cards.length = 0 := by omega
  have hne : ¬ cards = [] := by
    intro hc; subst hc; simp at hj
  have hrows0 : staffRows st = t.rows := by simp [staffRows, hget]
  have hrepl := replaceAllTx_fail u cards t.rows j hj
  have hset := staffRows_setTableRows st t t.rows hget
  simp only [updateHandler, hfetch, hinit, hlen, if_neg, hrows0, hrepl, hset]
  simp [hne, hrows0, hset]

/-- C1 witness: a concrete pre-populated destination, a two-record
extraction, and a failure at insert index 1. -/
theorem atomic_rollback_on_insert_failure_witness :
    (updateHandler (some 1) "2025-01-02 03:04:05" "20250102_030405"
        [sampleSrcRow, sampleSrcRow] sampleState).2 = .insertError 1 ∧
    staffRows (updateHandler (some 1) "2025-01-02 03:04:05" "20250102_030405"
        [sampleSrcRow, sampleSrcRow] sampleState).1 = staffRows sampleState :=
  atomic_rollback_on_insert_failure sampleState sampleTable
    "2025-01-02 03:04:05" "20250102_030405" [sampleSrcRow, sampleSrcRow]
    [sampleCard, sampleCard] 1 (by rfl) (by decide) (by rfl) (by decide)

/-- C2: a sync run whose extraction yields zero records fails with the
no-data error before the destination is connected or mutated: the catalog
is returned exactly as it was. -/
theorem empty_extraction_rejected (failAt : Option Nat) (u ts : String)
    (src : List SrcRow) (st : PgState)
    (hfetch : fetchStaffCards src = .ok []) :
    updateHandler failAt u ts src st = (st, .noData) := by
  simp [updateHandler, hfetch]

/-- C2 witness: the empty source against the sample catalog. -/
theorem empty_extraction_rejected_witness :
    updateHandler none "2025-01-02 03:04:05" "20250102_030405" [] sampleState =
      (sampleState, .noData) :=
  empty_extraction_rejected none "2025-01-02 03:04:05" "20250102_030405"
    [] sampleState (by rfl)

/-- C3: NULL fidelity.  A database-NULL decodes through `sql.NullString` to
the absent value `none`, never to an empty string; a nil pointer is bound as
SQL `NULL` on insert; and a full record round-trips unchanged through the
destination row encoding and the search-side decoding, so absent stays
distinguishable from the empty string for every optional field. -/
theorem null_roundtrip_fidelity :
    (∀ (u : String) (sc : StaffCard), searchDecodeRow (insertRow u sc) = .ok sc) ∧
    scanNullString SqlValue.vNull = none ∧
    encodeOptString none = SqlValue.vNull :=
  ⟨fun u sc => searchDecode_insertRow u sc, rfl, rfl⟩

/-- C4 counterexample: a `staff_cards` table whose column set is NOT exactly
the required eight (it has a ninth, unrecognized column) is nevertheless
kept: no archival happens and the catalog is unchanged, refuting the claim
that any shape other than the exact required set triggers archival. -/
theorem extra_columns_kept_counterexample :
    initPostgresTable "20250101_000000" extraColumnsState = (extraColumnsState, none) ∧
    (columnNames extraColumnsTable).contains "extra_col" = true ∧
    requiredColumns.contains "extra_col" = false := by
  refine ⟨by decide, by decide, by decide⟩

/-- C4 amended: `initPostgresTable` archives an existing table exactly when
it is missing at least one required column; a table containing all eight
required columns is kept even if it has extra columns. -/
theorem stale_iff_missing_required (ts : String) (st : PgState) (t : PgTable)
    (hget : getTable st "staff_cards" = some t) :
    ((initPostgresTable ts st).2 = some (archiveName ts) ↔
      hasAllColumns (columnNames t) = false) ∧
    ((initPostgresTable ts st).2 = none ↔
      hasAllColumns (columnNames t) = true) := by
  by_cases hc : hasAllColumns (columnNames t) <;>
    simp [initPostgresTable, hget, hc]

/-- C4 witness: the amended claim at a table missing a required column. -/
theorem stale_iff_missing_required_witness :
    ((initPostgresTable "20250101_000000" missingColumnState).2 =
        some (archiveName "20250101_000000") ↔
      hasAllColumns (columnNames missingColumnTable) = false) ∧
    ((initPostgresTable "20250101_000000" missingColumnState).2 = none ↔
      hasAllColumns (columnNames missingColumnTable) = true) :=
  stale_iff_missing_required "20250101_000000" missingColumnState
    missingColumnTable (by rfl)

/-- C5 counterexample: the freshly created `staff_cards` table declares its
two key columns `id_staff` and `identifier` WITHOUT `NOT NULL` — they are
nullable, refuting the claim that the keys are not nullable. -/
theorem created_keys_nullable_counterexample :
    getTable (initPostgresTable "20250101_000000" []).1 "staff_cards" = some freshTable ∧
    (freshTable.columns.filter (fun c => c.name = "id_staff")).map
      ColumnSpec.notNull = [false] ∧
    (freshTable.columns.filter (fun c => c.name = "identifier")).map
      ColumnSpec.notNull = [false] := by
  refine ⟨by decide, by decide, by decide⟩

/-- C5 amended: when `staff_cards` does not exist, the reconciler creates it
fresh with exactly the eight required columns, all of them nullable (the DDL
carries no `NOT NULL` constraint, not even on the two key columns), and with
zero rows. -/
theorem created_table_all_nullable (ts : String) (st : PgState)
    (hnone : getTable st "staff_cards" = none) :
    getTable (initPostgresTable ts st).1 "staff_cards" = some freshTable ∧
    columnNames freshTable = requiredColumns ∧
    freshTable.columns.all (fun c => !c.notNull) = true ∧
    freshTable.rows = [] := by
  refine ⟨?_, by decide, by decide, rfl⟩
  simp [initPostgresTable, hnone, getTable_setTable_same]

/-- C5 witness: the amended claim on an empty catalog. -/
theorem created_table_all_nullable_witness :
    getTable (initPostgresTable "20250101_000000" []).1 "staff_cards" = some freshTable ∧
    columnNames freshTable = requiredColumns ∧
    freshTable.columns.all (fun c => !c.notNull) = true ∧
    freshTable.rows = [] :=
  created_table_all_nullable "20250101_000000" [] (by rfl)

/-- C6: a destination table missing at least one required column is renamed
to `staff_cards_old_<timestamp>`, keeping its columns and rows (so the old
table stays queryable with its original row count), and a fresh, empty
`staff_cards` is created. -/
theorem drift_archives_and_recreates (ts : String) (st : PgState) (t : PgTable)
    (hget : getTable st "staff_cards" = some t)
    (hstale : hasAllColumns (columnNames t) = false) :
    (initPostgresTable ts st).2 = some (archiveName ts) ∧
    getTable (initPostgresTable ts st).1 (archiveName ts) = some t ∧
    getTable (initPostgresTable ts st).1 "staff_cards" = some freshTable ∧
    freshTable.rows = [] := by
  have harch := archiveName_ne ts
  have hst1 : (initPostgresTable ts st).1 =
      setTable (setTable (removeTable st "staff_cards") (archiveName ts) t)
        "staff_cards" freshTable := by
    simp [initPostgresTable, hget, hstale, renameTable]
  refine ⟨by simp [initPostgresTable, hget, hstale], ?_, ?_, rfl⟩
  · rw [hst1, getTable_setTable_ne _ _ _ _ harch, getTable_setTable_same]
  · rw [hst1, getTable_setTable_same]

/-- C6 witness: a table missing the `updated_at` column is archived with its
one row intact and replaced by the fresh empty table. -/
theorem drift_archives_and_recreates_witness :
    (initPostgresTable "20250607_080910" missingColumnState).2 =
      some (archiveName "20250607_080910") ∧
    getTable (initPostgresTable "20250607_080910" missingColumnState).1
      (archiveName "20250607_080910") = some missingColumnTable ∧
    getTable (initPostgresTable "20250607_080910" missingColumnState).1
      "staff_cards" = some freshTable ∧
    freshTable.rows = [] :=
  drift_archives_and_recreates "20250607_080910" missingColumnState
    missingColumnTable (by rfl) (by decide)

/-- C7: schema reconciliation is idempotent — against a table that already
has every required column, the first call changes nothing and reports no
archival, and so does the second call. -/
theorem reconciliation_idempotent (ts1 ts2 : String) (st : PgState) (t : PgTable)
    (hget : getTable st "staff_cards" = some t)
    (hcols : hasAllColumns (columnNames t) = true) :
    initPostgresTable ts1 st = (st, none) ∧
    initPostgresTable ts2 (initPostgresTable ts1 st).1 =
      ((initPostgresTable ts1 st).1, none) := by
  have h1 := initPostgresTable_correct ts1 st t hget hcols
  refine ⟨h1, ?_⟩
  rw [h1]
  exact initPostgresTable_correct ts2 st t hget hcols

/-- C7 witness: two successive reconciliations of the sample catalog. -/
theorem reconciliation_idempotent_witness :
    initPostgresTable "20250101_000000" sampleState = (sampleState, none) ∧
    initPostgresTable "20250102_000000"
        (initPostgresTable "20250101_000000" sampleState).1 =
      ((initPostgresTable "20250101_000000" sampleState).1, none) :=
  reconciliation_idempotent "20250101_000000" "20250102_000000" sampleState
    sampleTable (by rfl) (by decide)

/-- C8: `updated_at` is computed once before the insert loop, and after a
successful run every destination row is the input record stamped with that
single value, so all rows carry the identical `synced_at`. -/
theorem synced_at_uniform (u ts : String) (src : List SrcRow) (st : PgState)
    (cards : List StaffCard)
    (hfetch : fetchStaffCards src = .ok cards)
    (hne : cards ≠ []) :
    (updateHandler none u ts src st).2 = .ok cards.length u ∧
    staffRows (updateHandler none u ts src st).1 = cards.map (insertRow u) ∧
    ∀ d ∈ staffRows (updateHandler none u ts src st).1,
      d.updatedAt = SqlValue.vText u := by
  obtain ⟨t1, ht1⟩ := Option.isSome_iff_exists.mp (initPostgresTable_isSome ts st)
  have hrepl := replaceAllTx_none u cards (staffRows (initPostgresTable ts st).1)
  have hset := staffRows_setTableRows (initPostgresTable ts st).1 t1
    (cards.map (insertRow u)) ht1
  have hmain : updateHandler none u ts src st =
      (setTableRows (initPostgresTable ts st).1 "staff_cards"
        (cards.map (insertRow u)), .ok cards.length u) := by
    simp only [updateHandler, hfetch, hrepl]
    simp [hne]
  rw [hmain]
  refine ⟨rfl, by simpa using hset, ?_⟩
  intro d hd
  simp only [hset] at hd
  obtain ⟨sc, _, rfl⟩ := List.mem_map.mp hd
  rfl

/-- C8 witness: a one-record run stamps the single row with the run
timestamp. -/
theorem synced_at_uniform_witness :
    (updateHandler none "2025-01-02 03:04:05" "20250102_030405"
        [sampleSrcRow] sampleState).2 = .ok 1 "2025-01-02 03:04:05" ∧
    staffRows (updateHandler none "2025-01-02 03:04:05" "20250102_030405"
        [sampleSrcRow] sampleState).1 =
      [sampleCard].map (insertRow "2025-01-02 03:04:05") := by
  have h := synced_at_uniform "2025-01-02 03:04:05" "20250102_030405"
    [sampleSrcRow] sampleState [sampleCard] (by rfl) (by decide)
  exact ⟨h.1, h.2.1⟩

/-- C9: the loader writes exactly the input records, in input order, with no
reordering, dedup, or upsert — so duplicate identifiers yield duplicate
rows — and the card search on the loaded rows deterministically returns the
first match, not an error. -/
theorem duplicates_preserved_first_match (u c : String)
    (records : List StaffCard) (rows : List DestRow) (r : StaffCard)
    (hhead : (records.filter (fun x => x.identifier = c)).head? = some r) :
    (replaceAllTx none u records rows).1 = records.map (insertRow u) ∧
    (replaceAllTx none u records rows).1.length = records.length ∧
    searchAPIHandler c (records.map (insertRow u)) = .found r := by
  have h1 : (replaceAllTx none u records rows).1 = records.map (insertRow u) := by
    rw [replaceAllTx_none]
  refine ⟨h1, by rw [h1]; simp, ?_⟩
  simp only [searchAPIHandler, filter_map_insertRow, decodeResults_map]
  cases hf : records.filter (fun x => x.identifier = c) with
  | nil => rw [hf] at hhead; simp at hhead
  | cons a l =>
    rw [hf] at hhead
    simp only [List.head?] at hhead
    injection hhead with hhead
    subst hhead
    rfl

/-- C9 witness: two records sharing identifier `card-7` are both loaded and
the search returns the first of them. -/
theorem duplicates_preserved_first_match_witness :
    (replaceAllTx none "2025-01-02 03:04:05"
        [sampleCard, sampleCard2] [sampleDestRow]).1 =
      [sampleCard, sampleCard2].map (insertRow "2025-01-02 03:04:05") ∧
    (replaceAllTx none "2025-01-02 03:04:05"
        [sampleCard, sampleCard2] [sampleDestRow]).1.length =
      ([sampleCard, sampleCard2] : List StaffCard).length ∧
    searchAPIHandler "card-7"
        ([sampleCard, sampleCard2].map (insertRow "2025-01-02 03:04:05")) =
      .found sampleCard :=
  duplicates_preserved_first_match "2025-01-02 03:04:05" "card-7"
    [sampleCard, sampleCard2] [sampleDestRow] sampleCard (by decide)

/-- C10: a source row whose `ID_STAFF` or `IDENTIFIER` key is database-NULL
fails the row decode, so the whole run aborts with a scan error before any
destination connection is opened (the catalog is returned untouched), and no
record is ever produced from that row. -/
theorem null_key_aborts_run (failAt : Option Nat) (u ts : String)
    (src : List SrcRow) (st : PgState) (row : SrcRow)
    (hmem : row ∈ src)
    (hnull : row.idStaff = SqlValue.vNull ∨ row.identifier = SqlValue.vNull) :
    updateHandler failAt u ts src st = (st, .scanError) ∧
    exceptIsOk (scanStaffRow row) = false := by
  obtain ⟨e, he⟩ := scanStaffRow_null_key row hnull
  obtain ⟨e', he'⟩ := fetchStaffCards_mem_error src row e hmem he
  exact ⟨by simp [updateHandler, he'], by simp [he, exceptIsOk]⟩

/-- C10 witness: a two-row source whose second row has a NULL `ID_STAFF`. -/
theorem null_key_aborts_run_witness :
    updateHandler none "2025-01-02 03:04:05" "20250102_030405"
        [sampleSrcRow, nullKeySrcRow] sampleState =
      (sampleState, .scanError) ∧
    exceptIsOk (scanStaffRow nullKeySrcRow) = false :=
  null_key_aborts_run none "2025-01-02 03:04:05" "20250102_030405"
    [sampleSrcRow, nullKeySrcRow] sampleState nullKeySrcRow
    (by simp) (Or.inl (by rfl))

end PercoWeb
